import Mathlib

/-!
Shallow embedding of the `und_decode` repository (Rise course lesson
extractor and IMSCC packager) and proofs about its specification claims.

Modelling conventions:
* Python JSON values are the inductive `Json` below; `dict`s are ordered
  association lists (Python 3 dicts preserve insertion order and have
  unique keys).
* Machine-level notions are kept explicit: bytes are `Nat` values, Python
  exceptions are the `PyErr` inductive, fallible functions return
  `Option`/`Except`.
* `str.lower()` is modelled on its ASCII fragment (`pyLower`); every
  concrete input used in a theorem below is ASCII, where the model and
  CPython agree.
* `base64.b64decode` is modelled with its default lenient behaviour:
  characters outside the alphabet are discarded before decoding and the
  retained length must be a multiple of four.
* `json.loads` is modelled by a fuelled recursive-descent reader of the
  JSON grammar; numeric literals are modelled as integers (no claim below
  touches fractional numbers) and the fuel is ample for every input that
  appears in a theorem.
* Random identifiers (`uuid.uuid4`) and the literal manifest XML text are
  not observed by any claim and are elided from `create_manifest`; what the
  claims do observe - the per-lesson iteration order, the `KeyError` on a
  record without `'id'`, the filename derivation, and the call to the
  undefined name `create_canvas_settings` - is modelled exactly.
-/

/-- Python JSON values (the result of `json.loads`). Objects are ordered
association lists with distinct keys, matching Python 3 dicts. -/
inductive Json where
  | null : Json
  | bool : Bool → Json
  | num : Int → Json
  | str : String → Json
  | list : List Json → Json
  | obj : List (String × Json) → Json

/-- Python exceptions that the modelled code can raise. -/
inductive PyErr where
  | keyError : String → PyErr
  | nameError : String → PyErr
  | typeError : String → PyErr
  deriving DecidableEq, Repr

/-- Dictionary lookup, `d[k]` / `k in d` for a JSON object. -/
def lookupJson (kvs : List (String × Json)) (k : String) : Option Json :=
  (kvs.find? (fun p => p.1 == k)).map (fun p => p.2)

/-- Membership test `k in d` for a JSON object. -/
def hasKey (kvs : List (String × Json)) (k : String) : Bool :=
  kvs.any (fun p => p.1 == k)

/-- Python truthiness (`bool(v)`) of a JSON value. -/
def jsonTruthy : Json → Bool
  | .null => false
  | .bool b => b
  | .num n => n != 0
  | .str s => !s.data.isEmpty
  | .list xs => !xs.isEmpty
  | .obj kvs => !kvs.isEmpty

/-- Truthiness of the Python variable `lessons`, which is either `None`
or a JSON value. -/
def optTruthy : Option Json → Bool
  | none => false
  | some v => jsonTruthy v

/-- Python iteration `for x in v` over a JSON value: lists yield their
elements, dicts their keys, strings their characters; other values raise
`TypeError`. -/
def pyIterate : Json → Except PyErr (List Json)
  | .list xs => .ok xs
  | .obj kvs => .ok (kvs.map (fun p => Json.str p.1))
  | .str s => .ok (s.data.map (fun c => Json.str (String.mk [c])))
  | _ => .error (.typeError "object is not iterable")

/-- Projection of one lesson record to `{id, title}` as built by the
extraction loop (`und_decode.py` lines 200-214): `id` is required,
`title` optional. -/
structure Projected where
  id : Json
  title? : Option Json

/-- The extraction loop of `extract_lesson_data`: each dict element with
an `'id'` key is projected to `{id, title}`; elements that are not dicts
or lack `'id'` are dropped silently. -/
def projectLoop (items : List Json) : List Projected :=
  items.filterMap fun j =>
    match j with
    | .obj kvs =>
        match lookupJson kvs "id" with
        | some idv => some ⟨idv, lookupJson kvs "title"⟩
        | none => none
    | _ => none

/-- One entry of the `candidates` list of Method 2 of
`extract_lesson_data`: field name, its list value, and the fraction
`has_title_id / sample_size` kept as an exact pair (numerator,
denominator). CPython computes the fraction in floating point; for the
values that occur (both components at most 5) IEEE division is exact
enough that float comparison agrees with exact rational comparison, so
the rational model is faithful. -/
structure Candidate where
  name : String
  arr : List Json
  num : Nat
  den : Nat

/-- Test used on each sampled element: `isinstance(item, dict) and
'title' in item and 'id' in item`. -/
def isLessonLike : Json → Bool
  | .obj kvs => hasKey kvs "title" && hasKey kvs "id"
  | _ => false

/-- Sample fraction of a candidate list: count of lesson-like elements
among the first `min 5 (length)` elements, over the sample size. -/
def sampleFrac (xs : List Json) : Nat × Nat :=
  let sample := xs.take 5
  (sample.countP (fun j => isLessonLike j), sample.length)

/-- Comparison `a.frac < b.frac` on exact fractions by cross
multiplication. -/
def fracLt (a b : Candidate) : Bool :=
  a.num * b.den < b.num * a.den

/-- The `candidates` list built by the Method-2 loop, in dict iteration
order: fields whose value is a non-empty list and whose sample count is
positive. -/
def buildCandidates (data : List (String × Json)) : List Candidate :=
  data.filterMap fun kv =>
    match kv.2 with
    | .list xs =>
        if xs.isEmpty then none
        else
          let fr := sampleFrac xs
          if 0 < fr.1 then some ⟨kv.1, xs, fr.1, fr.2⟩ else none
    | _ => none

/-- Stable insertion (earlier elements stay before later elements of
equal fraction) used to model `candidates.sort(key=lambda x: x[2],
reverse=True)`, which CPython guarantees is a stable descending sort. -/
def insertCand (x : Candidate) : List Candidate → List Candidate
  | [] => [x]
  | y :: ys => if fracLt x y then y :: insertCand x ys else x :: y :: ys

/-- Stable sort of the candidate list by fraction, descending. A stable
sort by a fixed key is unique, so this insertion sort computes the same
list as CPython's Timsort with `reverse=True`. -/
def sortByFracDesc : List Candidate → List Candidate
  | [] => []
  | x :: xs => insertCand x (sortByFracDesc xs)

/-- Value of the Python variable `lessons` after Methods 1 and 2 of
`extract_lesson_data`: Method 1 reads the `'lessons'` field; if the
variable is then falsy (absent key, or a falsy value such as an empty
list), Method 2 scores the top-level fields, sorts the candidates stably
by fraction descending and takes the head, leaving the variable
unchanged when there is no candidate. -/
def chooseLessons (data : List (String × Json)) : Option Json :=
  if optTruthy (lookupJson data "lessons") then lookupJson data "lessons"
  else
    match (sortByFracDesc (buildCandidates data)).head? with
    | some c => some (Json.list c.arr)
    | none => lookupJson data "lessons"

/-- `extract_lesson_data` (`und_decode.py` lines 103-224 with
`debug=False`, identical to `imscc_creator.py` lines 90-151): Methods 1
and 2 choose the `lessons` value; if it is truthy it is iterated and
projected, otherwise the empty result is returned. -/
def extract_lesson_data (data : List (String × Json)) : Except PyErr (List Projected) :=
  match chooseLessons data with
  | some v =>
      if jsonTruthy v then
        match pyIterate v with
        | .error e => .error e
        | .ok items => .ok (projectLoop items)
      else .ok []
  | none => .ok []

/-- Modelled from the spec: the heuristic scan as worded in §4.2 of the
specification - "for every top-level field whose value is a non-empty
sequence, sample up to the first 5 elements and compute the fraction that
are records containing both an id-like and title-like attribute; collect
all fields with fraction > 0, rank by fraction descending, ties broken by
field encounter order, pick the highest-ranked field's sequence". The
first maximum in encounter order is computed directly, without sorting. -/
def firstMaxCand : List Candidate → Option Candidate
  | [] => none
  | x :: xs =>
      match firstMaxCand xs with
      | none => some x
      | some m => if fracLt x m then some m else some x

/-- Modelled from the spec: the candidate fields of the heuristic scan in
the spec's wording - every top-level field with a non-empty sequence
value, scored by the sample fraction, keeping those with fraction
greater than zero (the sample is non-empty, so the fraction is positive
exactly when the numerator is). -/
def specCandidates (data : List (String × Json)) : List Candidate :=
  (data.filterMap fun kv =>
    match kv.2 with
    | .list xs =>
        if xs.isEmpty then none
        else some (Candidate.mk kv.1 xs (sampleFrac xs).1 (sampleFrac xs).2)
    | _ => none).filter fun c => 0 < c.num

/-- Modelled from the spec: the sequence selected by the spec's heuristic
scan, if any. -/
def specHeuristicPick (data : List (String × Json)) : Option (List Json) :=
  (firstMaxCand (specCandidates data)).map (fun c => c.arr)

/-- Modelled from the spec: the extraction result when the heuristic scan
runs - the highest-ranked field's entries projected to `{id, title}`, or
the empty sequence when no field qualifies. -/
def specScanResult (data : List (String × Json)) : List Projected :=
  match specHeuristicPick data with
  | some xs => projectLoop xs
  | none => []

/-- Test whether an element of a candidate sequence is a record carrying
the required `'id'` attribute (the spec's condition for keeping it). -/
def isLessonRecord : Json → Bool
  | .obj kvs => hasKey kvs "id"
  | _ => false

/-! ### The JSONP payload extractor (`extract_jsonp_content`) -/

/-- Literal prefix of the strict pattern
`__resolveJsonp\("course:und","([^"]+)"\)`. -/
def strictMarker : List Char := "__resolveJsonp(\"course:und\",\"".data

/-- Literal prefix of the looser pattern
`__resolveJsonp\([^,]+,\s*"([^"]+)"\)`. -/
def looseMarker : List Char := "__resolveJsonp(".data

/-- Attempt to match the strict pattern at the current position. After
the literal marker, `[^"]+` is a maximal non-empty run of non-quote
characters (no shorter run can satisfy the following literal `"`), which
must be followed by `")`. -/
def strictAt (s : List Char) : Option (List Char) :=
  if strictMarker.isPrefixOf s then
    let rest := s.drop strictMarker.length
    let cap := rest.takeWhile (fun c => c != '"')
    if cap.isEmpty then none
    else
      match rest.drop cap.length with
      | '"' :: ')' :: _ => some cap
      | _ => none
  else none

/-- Leftmost match of the strict pattern, as `re.search` computes it:
try every start position from the left. -/
def strictFind : List Char → Option (List Char)
  | [] => none
  | c :: cs =>
      match strictAt (c :: cs) with
      | some cap => some cap
      | none => strictFind cs

/-- Python `\s` on ASCII input (the claims never exercise non-ASCII
whitespace). -/
def isPySpace (c : Char) : Bool :=
  c == ' ' || c == '\t' || c == '\n' || c == '\r' || c == '\x0b' || c == '\x0c'

/-- Attempt to match the looser pattern at the current position. Each
piece of `\([^,]+,\s*"([^"]+)"\)` is deterministic: `[^,]+` cannot match
past a comma and cannot usefully backtrack (the following literal is a
comma), and similarly for `\s*` and `[^"]+`. -/
def looserAt (s : List Char) : Option (List Char) :=
  if looseMarker.isPrefixOf s then
    let r1 := s.drop looseMarker.length
    let arg1 := r1.takeWhile (fun c => c != ',')
    if arg1.isEmpty then none
    else
      match r1.drop arg1.length with
      | ',' :: r2 =>
          match r2.dropWhile isPySpace with
          | '"' :: r4 =>
              let cap := r4.takeWhile (fun c => c != '"')
              if cap.isEmpty then none
              else
                match r4.drop cap.length with
                | '"' :: ')' :: _ => some cap
                | _ => none
          | _ => none
      | _ => none
  else none

/-- Leftmost match of the looser pattern. -/
def looserFind : List Char → Option (List Char)
  | [] => none
  | c :: cs =>
      match looserAt (c :: cs) with
      | some cap => some cap
      | none => looserFind cs

/-- Model of `extract_jsonp_content` (`und_decode.py` lines 9-39,
`imscc_creator.py` lines 32-64): strict pattern first, looser pattern as
fallback, `None` when neither matches. -/
def extract_jsonp_content (s : String) : Option String :=
  match strictFind s.data with
  | some cap => some (String.mk cap)
  | none => (looserFind s.data).map String.mk

/-! ### The payload decoder (`decode_base64_content`) -/

/-- Value of a character in the standard base64 alphabet. -/
def b64Val (c : Char) : Option Nat :=
  let n := c.toNat
  if 65 ≤ n && n ≤ 90 then some (n - 65)
  else if 97 ≤ n && n ≤ 122 then some (n - 97 + 26)
  else if 48 ≤ n && n ≤ 57 then some (n - 48 + 52)
  else if n == 43 then some 62
  else if n == 47 then some 63
  else none

/-- Characters retained by `base64.b64decode` before decoding (alphabet
characters and padding; everything else is discarded by default). -/
def isB64Retained (c : Char) : Bool :=
  (b64Val c).isSome || c == '='

/-- Decode the retained characters in blocks of four; a final block may
carry one or two padding characters. A retained length that is not a
multiple of four is the `binascii.Error` case. Leftover low bits of the
final symbol are ignored, as CPython does by default. -/
def b64Chunks : List Char → Option (List Nat)
  | [] => some []
  | c0 :: c1 :: c2 :: c3 :: rest =>
      match b64Val c0, b64Val c1 with
      | some v0, some v1 =>
          if c2 == '=' then
            if c3 == '=' && rest.isEmpty then some [v0 * 4 + v1 / 16] else none
          else
            match b64Val c2 with
            | some v2 =>
                if c3 == '=' then
                  if rest.isEmpty then some [v0 * 4 + v1 / 16, v1 % 16 * 16 + v2 / 4]
                  else none
                else
                  match b64Val c3 with
                  | some v3 =>
                      (b64Chunks rest).map
                        (fun bs => (v0 * 4 + v1 / 16) :: (v1 % 16 * 16 + v2 / 4) ::
                          ((v2 % 4 * 64 + v3) :: bs))
                  | none => none
            | none => none
      | _, _ => none
  | _ => none

/-- Model of `base64.b64decode` with default arguments. -/
def b64decode (s : List Char) : Option (List Nat) :=
  b64Chunks (s.filter isB64Retained)

/-- UTF-8 continuation byte test. -/
def isCont (b : Nat) : Bool := 128 ≤ b && b < 192

/-- Strict UTF-8 decoding of a byte list, as `bytes.decode('utf-8')`:
rejects continuation bytes in lead position, overlong encodings,
surrogates and out-of-range code points. -/
def utf8Decode : List Nat → Option (List Char)
  | [] => some []
  | b :: bs =>
      if b < 128 then (utf8Decode bs).map (fun cs => Char.ofNat b :: cs)
      else if b < 194 then none
      else if b < 224 then
        match bs with
        | b1 :: bs1 =>
            if isCont b1 then
              (utf8Decode bs1).map (fun cs => Char.ofNat ((b - 192) * 64 + (b1 - 128)) :: cs)
            else none
        | [] => none
      else if b < 240 then
        match bs with
        | b1 :: b2 :: bs2 =>
            let cp := (b - 224) * 4096 + (b1 - 128) * 64 + (b2 - 128)
            if isCont b1 && isCont b2 && 2048 ≤ cp && !(55296 ≤ cp && cp ≤ 57343) then
              (utf8Decode bs2).map (fun cs => Char.ofNat cp :: cs)
            else none
        | _ => none
      else if b < 245 then
        match bs with
        | b1 :: b2 :: b3 :: bs3 =>
            let cp := (b - 240) * 262144 + (b1 - 128) * 4096 + (b2 - 128) * 64 + (b3 - 128)
            if isCont b1 && isCont b2 && isCont b3 && 65536 ≤ cp && cp ≤ 1114111 then
              (utf8Decode bs3).map (fun cs => Char.ofNat cp :: cs)
            else none
        | _ => none
      else none

/-- Decoding a byte list as latin-1 (`bytes.decode('latin-1')`), which
maps every byte to the code point of the same value and never fails. The
repository never calls this; it is the fallback the specification claims
exists. -/
def latin1Decode (bs : List Nat) : List Char :=
  bs.map Char.ofNat

/-- Whitespace accepted between JSON tokens by `json.loads`. -/
def jsonWs (c : Char) : Bool :=
  c == ' ' || c == '\t' || c == '\n' || c == '\r'

/-- Hexadecimal digit value, for `\uXXXX` escapes. -/
def hexVal (c : Char) : Option Nat :=
  let n := c.toNat
  if 48 ≤ n && n ≤ 57 then some (n - 48)
  else if 97 ≤ n && n ≤ 102 then some (n - 87)
  else if 65 ≤ n && n ≤ 70 then some (n - 55)
  else none

/-- Single-character JSON string escapes. -/
def escChar : Char → Option Char
  | '"' => some '"'
  | '\\' => some '\\'
  | '/' => some '/'
  | 'b' => some (Char.ofNat 8)
  | 'f' => some (Char.ofNat 12)
  | 'n' => some (Char.ofNat 10)
  | 'r' => some (Char.ofNat 13)
  | 't' => some (Char.ofNat 9)
  | _ => none

/-- Body of a JSON string literal, after the opening quote; returns the
decoded characters and the remaining input. -/
def parseStrBody : Nat → List Char → Option (List Char × List Char)
  | 0, _ => none
  | _, [] => none
  | fuel + 1, c :: cs =>
      if c == '"' then some ([], cs)
      else if c == '\\' then
        match cs with
        | e :: cs1 =>
            if e == 'u' then
              match cs1 with
              | h1 :: h2 :: h3 :: h4 :: cs2 =>
                  match hexVal h1, hexVal h2, hexVal h3, hexVal h4 with
                  | some a, some b, some c2, some d =>
                      (parseStrBody fuel cs2).map
                        (fun r => (Char.ofNat (((a * 16 + b) * 16 + c2) * 16 + d) :: r.1, r.2))
                  | _, _, _, _ => none
              | _ => none
            else
              match escChar e with
              | some ec => (parseStrBody fuel cs1).map (fun r => (ec :: r.1, r.2))
              | none => none
        | [] => none
      else if c.toNat < 32 then none
      else (parseStrBody fuel cs).map (fun r => (c :: r.1, r.2))

/-- Digits of a JSON integer literal. -/
def isDigit (c : Char) : Bool := 48 ≤ c.toNat && c.toNat ≤ 57

/-- Value of a non-empty digit run. -/
def digitsVal (l : List Char) : Nat :=
  l.foldl (fun acc c => acc * 10 + (c.toNat - 48)) 0

/-- JSON integer literal with the JSON grammar's leading-zero rule.
Fractional and exponent forms are outside this model (no claim touches
them). -/
def parseIntLit (s : List Char) : Option (Int × List Char) :=
  let neg := s.head? == some '-'
  let s1 := if neg then s.drop 1 else s
  let ds := s1.takeWhile isDigit
  if ds.isEmpty then none
  else if ds.length > 1 && ds.head? == some '0' then none
  else
    let v : Int := Int.ofNat (digitsVal ds)
    some (if neg then -v else v, s1.drop ds.length)

mutual

/-- One JSON value, preceded by optional whitespace. -/
def parseVal : Nat → List Char → Option (Json × List Char)
  | 0, _ => none
  | fuel + 1, s0 =>
      let s := s0.dropWhile jsonWs
      match s with
      | [] => none
      | c :: cs =>
          if c == '"' then
            (parseStrBody fuel cs).map (fun r => (Json.str (String.mk r.1), r.2))
          else if c == '[' then
            match (cs.dropWhile jsonWs) with
            | ']' :: rest => some (Json.list [], rest)
            | _ => (parseArrItems fuel cs).map (fun r => (Json.list r.1, r.2))
          else if c == '\x7b' then
            match (cs.dropWhile jsonWs) with
            | '\x7d' :: rest => some (Json.obj [], rest)
            | _ => (parseObjItems fuel cs).map (fun r => (Json.obj r.1, r.2))
          else if c == 't' then
            if "rue".data.isPrefixOf cs then some (Json.bool true, cs.drop 3) else none
          else if c == 'f' then
            if "alse".data.isPrefixOf cs then some (Json.bool false, cs.drop 4) else none
          else if c == 'n' then
            if "ull".data.isPrefixOf cs then some (Json.null, cs.drop 3) else none
          else
            (parseIntLit s).map (fun r => (Json.num r.1, r.2))

/-- Elements of a JSON array after `[`, at least one element. -/
def parseArrItems : Nat → List Char → Option (List Json × List Char)
  | 0, _ => none
  | fuel + 1, s =>
      match parseVal fuel s with
      | none => none
      | some (v, rest) =>
          match rest.dropWhile jsonWs with
          | ',' :: rest1 =>
              (parseArrItems fuel rest1).map (fun r => (v :: r.1, r.2))
          | ']' :: rest1 => some ([v], rest1)
          | _ => none

/-- Members of a JSON object after `{`, at least one member. -/
def parseObjItems : Nat → List Char → Option (List (String × Json) × List Char)
  | 0, _ => none
  | fuel + 1, s =>
      match s.dropWhile jsonWs with
      | '"' :: s1 =>
          match parseStrBody fuel s1 with
          | none => none
          | some (key, s2) =>
              match s2.dropWhile jsonWs with
              | ':' :: s3 =>
                  match parseVal fuel s3 with
                  | none => none
                  | some (v, rest) =>
                      match rest.dropWhile jsonWs with
                      | ',' :: rest1 =>
                          (parseObjItems fuel rest1).map
                            (fun r => ((String.mk key, v) :: r.1, r.2))
                      | '\x7d' :: rest1 => some ([(String.mk key, v)], rest1)
                      | _ => none
              | _ => none
      | _ => none

end

/-- Model of `json.loads`: one value, then only trailing whitespace. The
fuel is ample for every input that occurs in a theorem below. -/
def jsonParse (s : List Char) : Option Json :=
  match parseVal (4 * s.length + 4) s with
  | some (v, rest) => if (rest.dropWhile jsonWs).isEmpty then some v else none
  | none => none

/-- Model of `decode_base64_content` (`und_decode.py` lines 41-64,
`imscc_creator.py` lines 67-87): base64-decode, decode as UTF-8, parse as
JSON, inside one `try` whose single `except` returns `None`. -/
def decode_base64_content (s : String) : Option Json :=
  match b64decode s.data with
  | none => none
  | some bytes =>
      match utf8Decode bytes with
      | none => none
      | some chars => jsonParse chars

/-! ### The packager (`imscc_creator.py`) -/

/-- Lesson dictionaries handed to the packager: ordered string-to-string
dicts, per the spec's data model (`id` and `title` are strings). -/
abbrev PyDict := List (String × String)

/-- Dictionary lookup `d.get(k)`. -/
def dictGet? (d : PyDict) (k : String) : Option String :=
  (d.find? (fun p => p.1 == k)).map (fun p => p.2)

/-- Dictionary assignment `d[k] = v`: overwrite in place, or append. -/
def dictSet (d : PyDict) (k v : String) : PyDict :=
  if (d.find? (fun p => p.1 == k)).isSome then
    d.map (fun p => if p.1 == k then (k, v) else p)
  else d ++ [(k, v)]

/-- ASCII fragment of `str.lower()`. -/
def pyLower (c : Char) : Char :=
  if 65 ≤ c.toNat && c.toNat ≤ 90 then Char.ofNat (c.toNat + 32) else c

/-- Character class `[a-z0-9]` of the sanitisation regex. -/
def isAllowed (c : Char) : Bool :=
  (97 ≤ c.toNat && c.toNat ≤ 122) || (48 ≤ c.toNat && c.toNat ≤ 57)

/-- Model of `re.sub(r'[^a-z0-9]+', '-', s)`: each maximal run of
disallowed characters becomes one hyphen. The flag records whether the
previous character belonged to a (already replaced) disallowed run. -/
def collapseAux : Bool → List Char → List Char
  | _, [] => []
  | prevBad, c :: cs =>
      if isAllowed c then c :: collapseAux false cs
      else
        match prevBad with
        | true => collapseAux true cs
        | false => '-' :: collapseAux true cs

/-- Model of `.strip('-')`: remove hyphens from both ends. -/
def pyStripHyphens (l : List Char) : List Char :=
  ((l.dropWhile (fun c => c == '-')).reverse.dropWhile (fun c => c == '-')).reverse

/-- The filename sanitisation shared by both derivation sites: lowercase,
collapse runs of characters outside `[a-z0-9]` to one hyphen, trim
leading and trailing hyphens. -/
def sanitize_title (t : String) : String :=
  String.mk (pyStripHyphens (collapseAux false (t.data.map pyLower)))

/-- Filename derivation in `create_manifest` (`imscc_creator.py` lines
260-268). -/
def manifest_filename (title : String) : String :=
  sanitize_title title ++ ".html"

/-- Fallback filename derivation in `create_lesson_pages`
(`imscc_creator.py` lines 336-340). -/
def pages_fallback_filename (title : String) : String :=
  sanitize_title title ++ ".html"

/-- Model of `html.escape` with its default `quote=True`; the sequential
`str.replace` calls of CPython (ampersand first) amount to this
character-wise map. -/
def htmlEscapeChar (c : Char) : List Char :=
  if c == '&' then "&amp;".data
  else if c == '<' then "&lt;".data
  else if c == '>' then "&gt;".data
  else if c == '"' then "&quot;".data
  else if c == '\'' then "&#x27;".data
  else [c]

/-- Model of `html.escape` on strings. -/
def htmlEscape (s : String) : String :=
  String.mk (s.data.map htmlEscapeChar).flatten

/-- Test `base_url.endswith('/')`. -/
def endsWithSlash (s : String) : Bool :=
  s.data.getLast? == some '/'

/-- The iframe URL built in `create_lesson_pages` (`imscc_creator.py`
lines 344-348): append a slash to the base URL unless it already ends
with one, then append the raw lesson id. -/
def iframe_url (base_url lesson_id : String) : String :=
  if endsWithSlash base_url then base_url ++ lesson_id
  else base_url ++ "/" ++ lesson_id

/-- The HTML page text before the embedded (escaped) iframe URL. -/
def pageHead (title : String) : String :=
  "<!DOCTYPE html>\n<html>\n<head>\n  <meta charset=\"UTF-8\">\n  <meta name=\"viewport\" content=\"width=device-width, initial-scale=1.0\">\n  <title>"
    ++ htmlEscape title
    ++ "</title>\n  <style>\n    body \x7b font-family: Arial, sans-serif; line-height: 1.6; margin: 0; padding: 20px; \x7d\n    h1 \x7b color: #333; margin-bottom: 20px; \x7d\n    .iframe-container \x7b width: 100%; height: 800px; border: 1px solid #ddd; margin: 20px 0; \x7d\n    iframe \x7b border: none; width: 100%; height: 100%; \x7d\n  </style>\n</head>\n<body>\n  <h1>"
    ++ htmlEscape title
    ++ "</h1>\n  <div class=\"iframe-container\">\n    <iframe src=\""

/-- The HTML page text after the embedded iframe URL. -/
def pageTail : String :=
  "\" allowfullscreen></iframe>\n  </div>\n  <p><small>This content is embedded from an external source.</small></p>\n</body>\n</html>\n"

/-- One generated wrapper page (`imscc_creator.py` lines 350-371): the
embedded URL appears HTML-escaped inside the `src` attribute. -/
def lesson_page_html (title url : String) : String :=
  pageHead title ++ htmlEscape url ++ pageTail

/-- The loop of `create_lesson_pages` (`imscc_creator.py` lines 331-377):
for each lesson read `'id'` (raising `KeyError` when absent), default the
title, take the filename set by `create_manifest` or fall back to
deriving it from the title, and emit `(filename, page text)`. -/
def pagesLoop (base_url : String) : List PyDict → Except PyErr (List (String × String))
  | [] => .ok []
  | l :: ls =>
      match dictGet? l "id" with
      | none => .error (.keyError "id")
      | some lid =>
          let title := (dictGet? l "title").getD "Untitled Lesson"
          let fn0 := (dictGet? l "filename").getD ""
          let fn := if fn0 == "" then pages_fallback_filename title else fn0
          match pagesLoop base_url ls with
          | .error e => .error e
          | .ok rest => .ok ((fn, lesson_page_html title (iframe_url base_url lid)) :: rest)

/-- Model of `create_lesson_pages`: the produced files in input order. -/
def create_lesson_pages (lessons : List PyDict) (base_url : String) :
    Except PyErr (List (String × String)) :=
  pagesLoop base_url lessons

/-- The per-lesson loop of `create_manifest` (`imscc_creator.py` lines
252-276): read `'id'` (raising `KeyError` when absent), derive the
filename from the title and store it on the lesson dict. The random
identifiers and the accumulated XML text are not observed by any claim
and are elided. -/
def manifestLoop : List PyDict → Except PyErr (List PyDict)
  | [] => .ok []
  | l :: ls =>
      match dictGet? l "id" with
      | none => .error (.keyError "id")
      | some _lid =>
          let title := (dictGet? l "title").getD "Untitled Lesson"
          let fn := manifest_filename title
          match manifestLoop ls with
          | .error e => .error e
          | .ok rest => .ok (dictSet l "filename" fn :: rest)

/-- Model of `create_manifest` (`imscc_creator.py` lines 181-314): after
the lesson loop and the resource section it unconditionally calls
`create_canvas_settings`, a name defined nowhere in the module, so a
completed loop always ends in `NameError`. -/
def create_manifest (_course_title : String) (lessons : List PyDict) (_org_id : String) :
    Except PyErr (List PyDict) :=
  match manifestLoop lessons with
  | .error e => .error e
  | .ok _updated => .error (.nameError "create_canvas_settings")

/-- Model of `create_imscc_package`: serialise the generated files and
return the output path; the zip container itself is not observed by any
claim. -/
def create_imscc_package (output_path : String) (_files : List (String × String)) : String :=
  output_path

/-- Model of `create_package` (`imscc_creator.py` lines 466-507): default
the course title, create the manifest, create the lesson pages, zip, and
return the output path. Filesystem scratch-directory handling always
succeeds in this model, so every failure comes from the steps above. -/
def create_package (lessons : List PyDict) (output_path base_url course_title : String) :
    Except PyErr String :=
  let ct := if course_title == "" then "Rise Course Export" else course_title
  match create_manifest ct lessons "org_1" with
  | .error e => .error e
  | .ok updated =>
      match create_lesson_pages updated base_url with
      | .error e => .error e
      | .ok files => .ok (create_imscc_package output_path files)

/-! ## Helper lemmas -/

/-- The head of the stable descending insertion sort is the first
candidate of maximal fraction in encounter order. -/
theorem head_sortByFracDesc : ∀ l : List Candidate,
    (sortByFracDesc l).head? = firstMaxCand l := by
  intro l
  induction l with
  | nil => rfl
  | cons x xs ih =>
      simp only [sortByFracDesc, firstMaxCand, ← ih]
      cases hs : sortByFracDesc xs with
      | nil => simp [insertCand]
      | cons y ys =>
          simp only [insertCand, List.head?_cons]
          by_cases hf : fracLt x y
          · simp [hf]
          · simp [hf]

/-- The Method-2 candidate list of the code coincides with the spec's
candidate-field list. -/
theorem buildCandidates_eq : ∀ data : List (String × Json),
    buildCandidates data = specCandidates data := by
  intro data
  induction data with
  | nil => rfl
  | cons kv rest ih =>
      simp only [buildCandidates, specCandidates, List.filterMap_cons] at *
      cases h2 : kv.2 with
      | list xs =>
          by_cases he : xs.isEmpty
          · simpa [he] using ih
          · by_cases hn : 0 < (sampleFrac xs).1
            · simpa [he, hn, List.filter_cons] using ih
            · simpa [he, hn, List.filter_cons] using ih
      | null => simpa using ih
      | bool b => simpa using ih
      | num n => simpa using ih
      | str s => simpa using ih
      | obj kvs => simpa using ih

/-- The first maximum, when it exists, is an element of the list. -/
theorem firstMaxCand_mem : ∀ {l : List Candidate} {c : Candidate},
    firstMaxCand l = some c → c ∈ l := by
  intro l
  induction l with
  | nil => intro c h; simp [firstMaxCand] at h
  | cons x xs ih =>
      intro c h
      rw [firstMaxCand] at h
      split at h
      · cases h
        exact List.mem_cons_self x xs
      · rename_i m heq
        split at h
        · cases h
          exact List.mem_cons_of_mem x (ih heq)
        · cases h
          exact List.mem_cons_self x xs

/-- Every spec candidate carries a non-empty sequence. -/
theorem specCandidates_arr_ne_nil : ∀ {data : List (String × Json)} {c : Candidate},
    c ∈ specCandidates data → c.arr ≠ [] := by
  intro data c h
  unfold specCandidates at h
  obtain ⟨h1, _⟩ := List.mem_filter.mp h
  obtain ⟨kv, _, h2⟩ := List.mem_filterMap.mp h1
  split at h2
  · split at h2
    · cases h2
    · rename_i he
      cases h2
      simpa using he
  · cases h2

/-! ## Claims C3 and C4: the lesson locator -/

/-- Claim C3 is false as stated: when the `'lessons'` field holds an
empty sequence, the heuristic scan still runs (the code tests Python
truthiness, not presence), and here it selects the `modules` field
instead of returning the empty projection of the `lessons` sequence. -/
theorem und_C3_counterexample :
    extract_lesson_data
        [("lessons", Json.list []),
         ("modules", Json.list [Json.obj [("id", Json.str "m1"), ("title", Json.str "T")]])] =
      .ok [⟨Json.str "m1", some (Json.str "T")⟩]
    ∧ lookupJson
        [("lessons", Json.list []),
         ("modules", Json.list [Json.obj [("id", Json.str "m1"), ("title", Json.str "T")]])]
        "lessons" = some (Json.list [])
    ∧ projectLoop [] = []
    ∧ (Except.ok [(⟨Json.str "m1", some (Json.str "T")⟩ : Projected)] :
        Except PyErr (List Projected)) ≠ .ok [] :=
  ⟨rfl, rfl, rfl, by simp⟩

/-- Claim C3 amended: for every decoded data object whose `'lessons'`
field holds a NON-EMPTY sequence, `extract_lesson_data` uses exactly that
sequence - no heuristic scan runs - and returns its entries projected to
`{id, title}`. -/
theorem und_C3_direct_lessons_field (data : List (String × Json)) (xs : List Json)
    (h : lookupJson data "lessons" = some (Json.list xs)) (hne : xs ≠ []) :
    extract_lesson_data data = .ok (projectLoop xs) := by
  have ht : optTruthy (lookupJson data "lessons") = true := by
    rw [h]; simpa [optTruthy, jsonTruthy] using hne
  unfold extract_lesson_data chooseLessons
  rw [ht, if_pos rfl, h]
  simpa [jsonTruthy, pyIterate] using fun hc => (absurd hc hne : projectLoop xs = [])

/-- Witness for C3 at a concrete input. -/
theorem und_C3_direct_lessons_field_witness :
    extract_lesson_data [("lessons", Json.list [Json.obj [("id", Json.str "a")]])] =
      .ok [⟨Json.str "a", none⟩] :=
  (und_C3_direct_lessons_field
      [("lessons", Json.list [Json.obj [("id", Json.str "a")]])]
      [Json.obj [("id", Json.str "a")]] rfl (by simp)).trans rfl

/-- Claim C4: whenever the `lessons` variable is falsy after Method 1
(the case in which the heuristic scan runs), the result of
`extract_lesson_data` is exactly the spec-worded heuristic: score every
top-level non-empty sequence field by the lesson-like fraction of its
first five elements, keep fractions greater than zero, rank descending
with ties broken by encounter order, use the highest-ranked sequence. -/
theorem und_C4_heuristic_scan (data : List (String × Json))
    (h : optTruthy (lookupJson data "lessons") = false) :
    extract_lesson_data data = .ok (specScanResult data) := by
  have hch : chooseLessons data =
      match firstMaxCand (specCandidates data) with
      | some c => some (Json.list c.arr)
      | none => lookupJson data "lessons" := by
    unfold chooseLessons
    rw [h, head_sortByFracDesc, buildCandidates_eq]
    simp
  unfold extract_lesson_data specScanResult specHeuristicPick
  cases hpick : firstMaxCand (specCandidates data) with
  | none =>
      rw [hpick] at hch
      rw [hch]
      cases hl : lookupJson data "lessons" with
      | none => rfl
      | some v =>
          rw [hl] at h
          simp only [optTruthy] at h
          simp [h]
  | some c =>
      rw [hpick] at hch
      have harr : c.arr ≠ [] := specCandidates_arr_ne_nil (firstMaxCand_mem hpick)
      rw [hch]
      simpa [jsonTruthy, pyIterate] using fun hc => (absurd hc harr : projectLoop c.arr = [])

/-- Witness for C4 at the spec's own example: a payload with a `modules`
array and no `lessons` key is located by the heuristic. -/
theorem und_C4_heuristic_scan_witness :
    extract_lesson_data
        [("modules", Json.list [Json.obj [("id", Json.str "a"), ("title", Json.str "t")]])] =
      .ok [⟨Json.str "a", some (Json.str "t")⟩] :=
  (und_C4_heuristic_scan
      [("modules", Json.list [Json.obj [("id", Json.str "a"), ("title", Json.str "t")]])]
      rfl).trans rfl

/-! ## Claims C1 and C2: the package builder and the undefined name -/

/-- When every lesson record carries an `'id'` key the manifest loop
completes. -/
theorem manifestLoop_ok_of_ids : ∀ lessons : List PyDict,
    (∀ l ∈ lessons, (dictGet? l "id").isSome) →
    ∃ r, manifestLoop lessons = .ok r := by
  intro lessons h
  induction lessons with
  | nil => exact ⟨[], rfl⟩
  | cons l ls ih =>
      obtain ⟨lid, hlid⟩ := Option.isSome_iff_exists.mp (h l (List.mem_cons_self l ls))
      obtain ⟨r, hr⟩ := ih (fun x hx => h x (List.mem_cons_of_mem _ hx))
      exact ⟨_, by rw [manifestLoop, hlid, hr]⟩

/-- `create_manifest` never succeeds: either the loop raises `KeyError`
or the final call to the undefined `create_canvas_settings` raises
`NameError`. -/
theorem create_manifest_always_error (ct : String) (lessons : List PyDict) (org : String) :
    ∃ e, create_manifest ct lessons org = .error e := by
  unfold create_manifest
  cases manifestLoop lessons with
  | error e => exact ⟨e, rfl⟩
  | ok r => exact ⟨.nameError "create_canvas_settings", rfl⟩

/-- Claim C1 (code bug): at the spec's own example input the package
builder does not produce an archive at all - `create_manifest`
unconditionally calls the undefined name `create_canvas_settings`, so
`create_package` raises `NameError` instead of returning a package whose
content files and manifest resources could be counted. -/
theorem und_C1_create_package_raises :
    create_package [[("id", "abc123"), ("title", "Intro")]]
        "course.imscc" "https://x.io/rise/" "" =
      .error (.nameError "create_canvas_settings") := rfl

/-- Claim C2 is almost right but not universal: a lesson record lacking
`'id'` makes the manifest loop raise `KeyError` at line 253 before the
undefined name is ever reached, so on that input `create_package` raises
`KeyError`, not `NameError`. -/
theorem und_C2_counterexample :
    create_package [[("title", "T")]] "out.imscc" "https://x.io/" "" =
      .error (.keyError "id")
    ∧ PyErr.keyError "id" ≠ PyErr.nameError "create_canvas_settings" :=
  ⟨rfl, by decide⟩

/-- Claim C2 amended: for every input whose lesson records all carry an
`'id'` key, `create_package` raises `NameError` (the call to the
undefined `create_canvas_settings`); and for every input whatsoever the
success branch is unreachable - `create_package` always returns an
error, never an archive. -/
theorem und_C2_no_success_branch :
    (∀ (lessons : List PyDict) (out base ct : String),
        (∀ l ∈ lessons, (dictGet? l "id").isSome) →
        create_package lessons out base ct = .error (.nameError "create_canvas_settings"))
    ∧ (∀ (lessons : List PyDict) (out base ct : String),
        ∃ e, create_package lessons out base ct = .error e) := by
  constructor
  · intro lessons out base ct h
    obtain ⟨r, hr⟩ := manifestLoop_ok_of_ids lessons h
    unfold create_package create_manifest
    rw [hr]
  · intro lessons out base ct
    unfold create_package create_manifest
    cases manifestLoop lessons with
    | error e => exact ⟨e, rfl⟩
    | ok r => exact ⟨.nameError "create_canvas_settings", rfl⟩

/-- Witness for C2 at a concrete input with an id. -/
theorem und_C2_no_success_branch_witness :
    create_package [[("id", "abc123")]] "out.imscc" "https://x.io/" "Course" =
      .error (.nameError "create_canvas_settings") :=
  und_C2_no_success_branch.1 [[("id", "abc123")]] "out.imscc" "https://x.io/" "Course"
    (by decide)

/-! ## Claim C5: the payload decoder -/

/-- Claim C5 is false: the decoder has one undifferentiated failure
value. The base64 text `"Iv8i"` decodes to the bytes `34, 255, 34`,
which are not UTF-8 but decode under the claimed latin-1 fallback to the
well-formed JSON text `"ÿ"` (a one-character string literal); under the
claim the call would therefore succeed, yet the code returns its single
failure value `None` because the UTF-8 failure is immediately fatal and
indistinguishable from every other failure. -/
theorem und_C5_counterexample :
    b64decode "Iv8i".data = some [34, 255, 34]
    ∧ utf8Decode [34, 255, 34] = none
    ∧ latin1Decode [34, 255, 34] = ['"', 'ÿ', '"']
    ∧ jsonParse (latin1Decode [34, 255, 34]) = some (Json.str "ÿ")
    ∧ decode_base64_content "Iv8i" = none :=
  ⟨rfl, rfl, rfl, rfl, rfl⟩

/-- Claim C5 amended: `decode_base64_content` performs base64 decoding,
strict UTF-8 decoding with no fallback encodings, and JSON parsing, in
that order, and returns the single failure value `None` whenever any of
the three steps fails; the three failure modes are not distinct. -/
theorem und_C5_single_failure_value :
    (∀ s : String, b64decode s.data = none → decode_base64_content s = none)
    ∧ (∀ (s : String) (bytes : List Nat),
        b64decode s.data = some bytes → utf8Decode bytes = none →
        decode_base64_content s = none)
    ∧ (∀ (s : String) (bytes : List Nat) (chars : List Char),
        b64decode s.data = some bytes → utf8Decode bytes = some chars →
        jsonParse chars = none → decode_base64_content s = none) := by
  refine ⟨?_, ?_, ?_⟩
  · intro s h
    simp only [decode_base64_content, h]
  · intro s bytes h1 h2
    simp only [decode_base64_content, h1, h2]
  · intro s bytes chars h1 h2 h3
    simp only [decode_base64_content, h1, h2, h3]

/-- Witness for C5 at a concrete input failing the UTF-8 step. -/
theorem und_C5_single_failure_value_witness :
    decode_base64_content "Iv8i" = none :=
  und_C5_single_failure_value.2.1 "Iv8i" [34, 255, 34] rfl rfl

/-! ## Claim C9: records without an id -/

/-- Coherence of the two dictionary views: a missing key means a failed
search. -/
theorem findKey_eq_none : ∀ (kvs : List (String × Json)) (k : String),
    hasKey kvs k = false → kvs.find? (fun p => p.1 == k) = none := by
  intro kvs k h
  induction kvs with
  | nil => rfl
  | cons p ps ih =>
      simp only [hasKey, List.any_cons, Bool.or_eq_false_iff] at h
      simp only [List.find?, h.1]
      exact ih h.2

/-- Coherence of the two dictionary views: a missing key means a failed
lookup. -/
theorem lookupJson_eq_none_of_hasKey_false (kvs : List (String × Json)) (k : String)
    (h : hasKey kvs k = false) : lookupJson kvs k = none := by
  unfold lookupJson
  rw [findKey_eq_none kvs k h]
  rfl

/-- Claim C9 is half right: the extractor does drop an id-less record
and continue (first conjunct of the amended theorem), but the packager
does not skip such a record - `create_manifest` aborts the whole batch
with `KeyError` on the first record lacking `'id'`, before the second
(valid) record is processed, rather than reaching its unconditional
final `NameError`. -/
theorem und_C9_counterexample :
    create_manifest "T" [[("title", "X")], [("id", "a")]] "org_1" = .error (.keyError "id")
    ∧ PyErr.keyError "id" ≠ PyErr.nameError "create_canvas_settings"
    ∧ projectLoop [Json.obj [("title", Json.str "X")], Json.obj [("id", Json.str "a")]] =
        [⟨Json.str "a", none⟩] :=
  ⟨rfl, by decide, rfl⟩

/-- Claim C9 amended: in the extractor a record lacking the required
`'id'` attribute is dropped silently and the remaining records are still
processed; the packager, however, does not skip such a record - handed a
batch whose first id-less record follows any number of valid ones,
`create_manifest` aborts with `KeyError` at that record. -/
theorem und_C9_skip_vs_abort :
    (∀ (pre post : List Json) (j : Json),
        isLessonRecord j = false →
        projectLoop (pre ++ j :: post) = projectLoop (pre ++ post))
    ∧ (∀ (ct : String) (pre : List PyDict) (l : PyDict) (post : List PyDict) (org : String),
        (∀ p ∈ pre, (dictGet? p "id").isSome) → dictGet? l "id" = none →
        create_manifest ct (pre ++ l :: post) org = .error (.keyError "id")) := by
  constructor
  · intro pre post j hj
    have hnone : (match j with
        | Json.obj kvs =>
            match lookupJson kvs "id" with
            | some idv => some (⟨idv, lookupJson kvs "title"⟩ : Projected)
            | none => none
        | _ => none) = none := by
      cases j <;> simp_all [isLessonRecord]
      case obj kvs => rw [lookupJson_eq_none_of_hasKey_false kvs "id" hj]
    unfold projectLoop
    rw [List.filterMap_append, List.filterMap_append, List.filterMap_cons, hnone]
  · intro ct pre l post org h hl
    have hloop : ∀ pre2 : List PyDict, (∀ p ∈ pre2, (dictGet? p "id").isSome) →
        manifestLoop (pre2 ++ l :: post) = .error (.keyError "id") := by
      intro pre2 hpre2
      induction pre2 with
      | nil => simp only [List.nil_append, manifestLoop, hl]
      | cons p ps ih =>
          obtain ⟨pid, hpid⟩ :=
            Option.isSome_iff_exists.mp (hpre2 p (List.mem_cons_self p ps))
          rw [List.cons_append, manifestLoop, hpid,
            ih (fun x hx => hpre2 x (List.mem_cons_of_mem _ hx))]
    unfold create_manifest
    rw [hloop pre h]

/-- Witness for C9 at a concrete batch. -/
theorem und_C9_skip_vs_abort_witness :
    create_manifest "T" ([[("id", "a")]] ++ [("title", "X")] :: []) "org_1" =
      .error (.keyError "id") :=
  und_C9_skip_vs_abort.2 "T" [[("id", "a")]] [("title", "X")] [] "org_1" (by decide) rfl

/-! ## Claim C7: the embedded iframe URL -/

/-- Claim C7: the URL embedded in a lesson's wrapper page is the base
URL followed by the raw lesson id, with a path delimiter inserted at the
junction exactly when the base URL does not already end with one; at the
spec's example input the embedded URL is exactly
`https://x.io/rise/abc123`, appearing verbatim (its HTML escaping is the
identity here) between the fixed page parts. -/
theorem und_C7_embedded_url :
    (∀ base lid : String,
        (endsWithSlash base = true ∧ iframe_url base lid = base ++ lid) ∨
        (endsWithSlash base = false ∧ iframe_url base lid = base ++ "/" ++ lid))
    ∧ iframe_url "https://x.io/rise/" "abc123" = "https://x.io/rise/abc123"
    ∧ htmlEscape "https://x.io/rise/abc123" = "https://x.io/rise/abc123"
    ∧ lesson_page_html "Intro" (iframe_url "https://x.io/rise/" "abc123") =
        pageHead "Intro" ++ "https://x.io/rise/abc123" ++ pageTail := by
  refine ⟨?_, rfl, rfl, rfl⟩
  intro base lid
  cases h : endsWithSlash base with
  | false => exact Or.inr ⟨rfl, by simp [iframe_url, h]⟩
  | true => exact Or.inl ⟨rfl, by simp [iframe_url, h]⟩

/-! ## Claim C10: pattern preference and NotFound -/

/-- Claim C10: `extract_jsonp_content` returns the strict pattern's
capture when the strict pattern matches, otherwise the looser pattern's
capture, otherwise `None`; in particular wrapper text matching the looser
pattern only is captured by it, and text matching neither yields `None`
rather than an error. -/
theorem und_C10_search_order :
    (∀ (s : String) (cap : List Char),
        strictFind s.data = some cap → extract_jsonp_content s = some (String.mk cap))
    ∧ (∀ s : String, strictFind s.data = none →
        extract_jsonp_content s = (looserFind s.data).map String.mk)
    ∧ extract_jsonp_content "begin __resolveJsonp(\"course:und\",\"QUJD\") end" = some "QUJD"
    ∧ strictFind "__resolveJsonp(window.config, \"XYZ\")".data = none
    ∧ extract_jsonp_content "__resolveJsonp(window.config, \"XYZ\")" = some "XYZ"
    ∧ extract_jsonp_content "wrapper text without the call pattern" = none := by
  refine ⟨?_, ?_, rfl, rfl, rfl, rfl⟩
  · intro s cap h
    unfold extract_jsonp_content
    rw [h]
  · intro s h
    unfold extract_jsonp_content
    rw [h]

/-- Witness for C10 at a concrete strict-pattern input. -/
theorem und_C10_search_order_witness :
    extract_jsonp_content "x __resolveJsonp(\"course:und\",\"PAYLOAD\")" =
      some (String.mk "PAYLOAD".data) :=
  und_C10_search_order.1 "x __resolveJsonp(\"course:und\",\"PAYLOAD\")" "PAYLOAD".data rfl

/-! ## Sanitisation lemmas (for claims C6 and C8) -/

/-- Adjacency constraint on sanitised text: no two neighbouring
hyphens. -/
def noTwoHyphens (a b : Char) : Prop := ¬(a = '-' ∧ b = '-')

/-- Every character emitted by the collapse step is allowed or a
hyphen. -/
theorem mem_collapseAux : ∀ (l : List Char) (b : Bool) (c : Char),
    c ∈ collapseAux b l → isAllowed c = true ∨ c = '-' := by
  intro l
  induction l with
  | nil => intro b c h; cases b <;> simp [collapseAux] at h
  | cons x xs ih =>
      intro b c h
      by_cases hx : isAllowed x
      · cases b <;> rw [collapseAux, if_pos hx] at h <;>
          rcases List.mem_cons.mp h with h1 | h1
        · exact h1 ▸ Or.inl hx
        · exact ih false c h1
        · exact h1 ▸ Or.inl hx
        · exact ih false c h1
      · cases b with
        | true =>
            rw [collapseAux, if_neg hx] at h
            exact ih true c h
        | false =>
            rw [collapseAux, if_neg hx] at h
            rcases List.mem_cons.mp h with h1 | h1
            · exact Or.inr h1
            · exact ih true c h1

/-- After a replaced run the next emitted character is allowed. -/
theorem head_collapseAux_true : ∀ (l : List Char) (c : Char),
    (collapseAux true l).head? = some c → isAllowed c = true := by
  intro l
  induction l with
  | nil => intro c h; simp [collapseAux] at h
  | cons x xs ih =>
      intro c h
      by_cases hx : isAllowed x
      · rw [collapseAux, if_pos hx, List.head?_cons, Option.some.injEq] at h
        exact h ▸ hx
      · rw [collapseAux, if_neg hx] at h
        exact ih c h

/-- The collapse step never emits two adjacent hyphens. -/
theorem chain_collapseAux : ∀ (l : List Char) (b : Bool),
    List.Chain' noTwoHyphens (collapseAux b l) := by
  intro l
  induction l with
  | nil => intro b; cases b <;> simp [collapseAux]
  | cons x xs ih =>
      intro b
      by_cases hx : isAllowed x
      · have hchain : List.Chain' noTwoHyphens (x :: collapseAux false xs) := by
          rw [List.chain'_cons']
          refine ⟨?_, ih false⟩
          intro y _ hy
          obtain ⟨hx', _⟩ := hy
          rw [hx'] at hx
          exact absurd hx (by decide)
        cases b <;> rw [collapseAux, if_pos hx] <;> exact hchain
      · cases b with
        | true =>
            rw [collapseAux, if_neg hx]
            exact ih true
        | false =>
            rw [collapseAux, if_neg hx]
            rw [List.chain'_cons']
            refine ⟨?_, ih true⟩
            intro y hy hpair
            obtain ⟨_, hy'⟩ := hpair
            have := head_collapseAux_true xs y hy
            rw [hy'] at this
            exact absurd this (by decide)

/-- The collapse step is the identity on text whose characters are
allowed or hyphens, with no two adjacent hyphens, and (in the
after-a-run state) no leading hyphen. -/
theorem collapseAux_eq_self : ∀ (l : List Char) (b : Bool),
    (∀ c ∈ l, isAllowed c = true ∨ c = '-') →
    List.Chain' noTwoHyphens l →
    (b = true → l.head? ≠ some '-') →
    collapseAux b l = l := by
  intro l
  induction l with
  | nil => intro b _ _ _; cases b <;> rfl
  | cons x xs ih =>
      intro b hok hch hhd
      rcases hok x (List.mem_cons_self x xs) with hx | hx
      · have htail : collapseAux false xs = xs := by
          refine ih false (fun c hc => hok c (List.mem_cons_of_mem _ hc)) hch.tail ?_
          intro hfalse
          cases hfalse
        cases b <;> rw [collapseAux, if_pos hx, htail]
      · subst hx
        cases b with
        | true => exact absurd rfl (hhd rfl)
        | false =>
            have hx' : isAllowed '-' = false := by decide
            rw [collapseAux, if_neg (by simp [hx'])]
            have hhd2 : xs.head? ≠ some '-' := by
              intro hxs
              rcases xs with _ | ⟨y, ys⟩
              · cases hxs
              · rw [List.head?_cons, Option.some.injEq] at hxs
                subst hxs
                have := (List.chain'_cons'.mp hch).1 '-' rfl
                exact this ⟨rfl, rfl⟩
            rw [ih true (fun c hc => hok c (List.mem_cons_of_mem _ hc)) hch.tail
              (fun _ => hhd2)]

/-- Characters surviving `dropWhile` were in the list. -/
theorem mem_dropWhile_sub (p : Char → Bool) (l : List Char) (c : Char)
    (h : c ∈ l.dropWhile p) : c ∈ l := by
  rw [← List.takeWhile_append_dropWhile p l]
  exact List.mem_append_right _ h

/-- The head surviving `dropWhile` refutes the predicate. -/
theorem head_dropWhile_not (p : Char → Bool) : ∀ (l : List Char) (c : Char),
    (l.dropWhile p).head? = some c → p c = false := by
  intro l
  induction l with
  | nil => intro c h; cases h
  | cons x xs ih =>
      intro c h
      by_cases hx : p x
      · rw [List.dropWhile_cons, if_pos hx] at h
        exact ih c h
      · rw [List.dropWhile_cons, if_neg hx, List.head?_cons, Option.some.injEq] at h
        subst h
        exact Bool.eq_false_iff.mpr hx

/-- `dropWhile` keeps a list whose head refutes the predicate. -/
theorem dropWhile_eq_self_of_head (p : Char → Bool) (l : List Char)
    (h : ∀ c, l.head? = some c → p c = false) : l.dropWhile p = l := by
  cases l with
  | nil => rfl
  | cons x xs =>
      have hx := h x rfl
      rw [List.dropWhile_cons, if_neg (by simp [hx])]

/-- The stripped text is an initial part of the left-stripped text. -/
theorem dropWhile_eq_strip_append (l : List Char) :
    l.dropWhile (fun c => c == '-') =
      pyStripHyphens l ++
        ((l.dropWhile (fun c => c == '-')).reverse.takeWhile (fun c => c == '-')).reverse := by
  have h := congrArg List.reverse
    (List.takeWhile_append_dropWhile (fun c => c == '-')
      (l.dropWhile (fun c => c == '-')).reverse)
  rw [List.reverse_append, List.reverse_reverse] at h
  exact h.symm

/-- Characters of the stripped text were in the original. -/
theorem mem_pyStripHyphens (l : List Char) (c : Char) (h : c ∈ pyStripHyphens l) : c ∈ l := by
  unfold pyStripHyphens at h
  rw [List.mem_reverse] at h
  exact mem_dropWhile_sub _ _ _
    (List.mem_reverse.mp (mem_dropWhile_sub _ _ _ h))

/-- The stripped text never has two adjacent hyphens if the original
did not. -/
theorem chain_pyStripHyphens (l : List Char) (h : List.Chain' noTwoHyphens l) :
    List.Chain' noTwoHyphens (pyStripHyphens l) := by
  have hsymm : ∀ a b : Char, noTwoHyphens a b → flip noTwoHyphens a b := by
    intro a b hab hba
    exact hab ⟨hba.2, hba.1⟩
  have h1 : List.Chain' noTwoHyphens (l.dropWhile (fun c => c == '-')) := by
    rw [← List.takeWhile_append_dropWhile (fun c => c == '-') l] at h
    exact h.right_of_append
  have h2 : List.Chain' noTwoHyphens (l.dropWhile (fun c => c == '-')).reverse :=
    List.chain'_reverse.mpr (h1.imp hsymm)
  have h3 : List.Chain' noTwoHyphens
      ((l.dropWhile (fun c => c == '-')).reverse.dropWhile (fun c => c == '-')) := by
    rw [← List.takeWhile_append_dropWhile (fun c => c == '-')
      (l.dropWhile (fun c => c == '-')).reverse] at h2
    exact h2.right_of_append
  exact List.chain'_reverse.mpr (h3.imp hsymm)

/-- The stripped text does not start with a hyphen. -/
theorem head_pyStripHyphens (l : List Char) :
    ∀ c, (pyStripHyphens l).head? = some c → (c == '-') = false := by
  intro c h
  rcases hr : pyStripHyphens l with _ | ⟨a, r'⟩
  · rw [hr] at h; cases h
  · rw [hr, List.head?_cons, Option.some.injEq] at h
    subst h
    have hd := dropWhile_eq_strip_append l
    rw [hr, List.cons_append] at hd
    exact head_dropWhile_not _ l a (by rw [hd, List.head?_cons])

/-- The stripped text does not end with a hyphen. -/
theorem getLast_pyStripHyphens (l : List Char) :
    ∀ c, (pyStripHyphens l).getLast? = some c → (c == '-') = false := by
  intro c h
  unfold pyStripHyphens at h
  rw [List.getLast?_reverse] at h
  exact head_dropWhile_not _ _ c h

/-- Stripping is the identity on text with no hyphen at either end. -/
theorem pyStripHyphens_eq_self (l : List Char)
    (h1 : ∀ c, l.head? = some c → (c == '-') = false)
    (h2 : ∀ c, l.getLast? = some c → (c == '-') = false) :
    pyStripHyphens l = l := by
  unfold pyStripHyphens
  rw [dropWhile_eq_self_of_head _ l h1,
    dropWhile_eq_self_of_head _ l.reverse (fun c hc => h2 c (by rwa [List.head?_reverse] at hc)),
    List.reverse_reverse]

/-- The ASCII lowercase map fixes allowed characters and the hyphen. -/
theorem pyLower_fix (c : Char) (h : isAllowed c = true ∨ c = '-') : pyLower c = c := by
  rcases h with h | h
  · unfold isAllowed at h
    simp only [Bool.or_eq_true, Bool.and_eq_true, decide_eq_true_eq] at h
    unfold pyLower
    rcases h with ⟨h1, h2⟩ | ⟨h1, h2⟩ <;>
      rw [if_neg (by simp only [Bool.and_eq_true, decide_eq_true_eq]; omega)]
  · subst h; rfl

/-- Mapping the lowercase function over already-sanitised text changes
nothing. -/
theorem map_pyLower_fix : ∀ l : List Char, (∀ c ∈ l, isAllowed c = true ∨ c = '-') →
    l.map pyLower = l := by
  intro l h
  induction l with
  | nil => rfl
  | cons x xs ih =>
      rw [List.map_cons, pyLower_fix x (h x (List.mem_cons_self x xs)),
        ih (fun c hc => h c (List.mem_cons_of_mem _ hc))]

/-! ## Claim C6: deterministic, idempotent filename derivation -/

/-- Claim C6: the filename sanitisation is idempotent - applying the
lowercase, collapse and trim steps to an already-sanitised title leaves
it unchanged - and the two derivation sites of the code
(`create_manifest` and the `create_lesson_pages` fallback) compute the
same deterministic function of the title. -/
theorem und_C6_filename_stable : ∀ t : String,
    sanitize_title (sanitize_title t) = sanitize_title t
    ∧ manifest_filename t = pages_fallback_filename t := by
  intro t
  refine ⟨?_, rfl⟩
  show String.mk (pyStripHyphens (collapseAux false
      ((sanitize_title t).data.map pyLower))) = sanitize_title t
  have hr : (sanitize_title t).data =
      pyStripHyphens (collapseAux false (t.data.map pyLower)) := rfl
  have hok : ∀ c ∈ (sanitize_title t).data, isAllowed c = true ∨ c = '-' := by
    intro c hc
    rw [hr] at hc
    exact mem_collapseAux _ false c (mem_pyStripHyphens _ c hc)
  have hch : List.Chain' noTwoHyphens (sanitize_title t).data := by
    rw [hr]
    exact chain_pyStripHyphens _ (chain_collapseAux _ false)
  have hhd : ∀ c, (sanitize_title t).data.head? = some c → (c == '-') = false := by
    intro c hc
    rw [hr] at hc
    exact head_pyStripHyphens _ c hc
  have hlast : ∀ c, (sanitize_title t).data.getLast? = some c → (c == '-') = false := by
    intro c hc
    rw [hr] at hc
    exact getLast_pyStripHyphens _ c hc
  rw [map_pyLower_fix _ hok]
  rw [collapseAux_eq_self _ false hok hch (fun hfalse => absurd hfalse (by decide))]
  rw [pyStripHyphens_eq_self _ hhd hlast]

/-! ## Claim C8: one file per lesson, and (non-)injectivity -/

/-- Appending a fixed suffix to strings is injective. -/
theorem append_suffix_cancel (s₁ s₂ t : String) (h : s₁ ++ t = s₂ ++ t) : s₁ = s₂ := by
  have hd := congrArg String.data h
  simp only [String.data_append] at hd
  exact String.ext (List.append_cancel_right hd)

/-- When every lesson record carries an `'id'` key, the page loop emits
exactly one content file per lesson. -/
theorem pagesLoop_ok_of_ids : ∀ (lessons : List PyDict) (base : String),
    (∀ l ∈ lessons, (dictGet? l "id").isSome) →
    ∃ out, pagesLoop base lessons = .ok out ∧ out.length = lessons.length := by
  intro lessons base h
  induction lessons with
  | nil => exact ⟨[], rfl, rfl⟩
  | cons l ls ih =>
      obtain ⟨lid, hlid⟩ := Option.isSome_iff_exists.mp (h l (List.mem_cons_self l ls))
      obtain ⟨out, hout, hlen⟩ := ih (fun x hx => h x (List.mem_cons_of_mem _ hx))
      refine ⟨((if ((dictGet? l "filename").getD "" == "") = true then
          pages_fallback_filename ((dictGet? l "title").getD "Untitled Lesson")
        else (dictGet? l "filename").getD ""),
        lesson_page_html ((dictGet? l "title").getD "Untitled Lesson")
          (iframe_url base lid)) :: out, ?_, ?_⟩
      · rw [pagesLoop, hlid, hout]
      · simp [hlen]

/-- Claim C8 is false on injectivity: two lessons with the distinct
titles `A` and `A!` sanitise to the same filename `a.html`, so the
package generates two content files at the same path (the second
overwrites the first on disk). -/
theorem und_C8_counterexample :
    Except.map (fun out => out.map (fun f => f.1))
        (create_lesson_pages [[("id", "1"), ("title", "A")], [("id", "2"), ("title", "A!")]]
          "https://x.io/") = .ok ["a.html", "a.html"]
    ∧ ("A" : String) ≠ "A!"
    ∧ sanitize_title "A" = sanitize_title "A!"
    ∧ manifest_filename "A" = "a.html" ∧ manifest_filename "A!" = "a.html" :=
  ⟨rfl, by decide, rfl, rfl, rfl⟩

/-- Claim C8 amended: every processed lesson gets exactly one generated
content file, and the title-to-path derivation is a deterministic
function which is injective on sanitised titles - two lessons whose
titles differ after sanitisation never share a content-file path - but
not injective on raw titles (distinct titles may collide). -/
theorem und_C8_one_file_per_lesson :
    (∀ (lessons : List PyDict) (base : String),
        (∀ l ∈ lessons, (dictGet? l "id").isSome) →
        ∃ out, create_lesson_pages lessons base = .ok out ∧ out.length = lessons.length)
    ∧ (∀ t₁ t₂ : String, sanitize_title t₁ ≠ sanitize_title t₂ →
        manifest_filename t₁ ≠ manifest_filename t₂) := by
  constructor
  · intro lessons base h
    exact pagesLoop_ok_of_ids lessons base h
  · intro t₁ t₂ hne heq
    exact hne (append_suffix_cancel _ _ ".html" heq)

/-- Witness for C8 at concrete titles with distinct sanitised forms. -/
theorem und_C8_one_file_per_lesson_witness :
    manifest_filename "Alpha" ≠ manifest_filename "Beta" :=
  und_C8_one_file_per_lesson.2 "Alpha" "Beta" (by decide)
